import Mathlib

/-!
Verification of the hyprfinity span/fit/lifecycle core.

Shallow embedding of the Rust sources:
  - `src/util.rs`        : clamp_i32, even_floor, scaled_dimensions
  - `src/hyprland.rs`    : compute_monitor_span, fit_window_to_span
  - `src/gamescope.rs`   : derive_internal_size, derive_output_size,
                           has_arg, build_gamescope_args_with_internal,
                           gamescope_down, the ctrl-c shutdown guard
  - `src/types.rs`       : Monitor

Rust `i32` values are modelled as unbounded `Int`; all quantities involved
(monitor coordinates, pixel sizes) are far from the `i32` boundaries and no
wrapping arithmetic occurs in the modelled code paths.  Rust `f32`
computations (`scale` multiplication and the aspect-ratio division) are
modelled as exact rational arithmetic followed by `f32::round` semantics
(round half away from zero); the properties proved below depend only on the
rounded integer, never on float representation error.
-/

namespace Hyprfinity

/-- Model of `src/types.rs` `Monitor`: name plus position and size in pixels. -/
structure Monitor where
  name : Option String
  width : Int
  height : Int
  x : Int
  y : Int
deriving Repr, DecidableEq

/-! ## util.rs -/

/-- Model of `src/util.rs` `clamp_i32`: `v.max(min).min(max)`. -/
def clamp_i32 (v mn mx : Int) : Int :=
  min (max v mn) mx

/-- Model of `src/util.rs` `even_floor`. -/
def even_floor (v : Int) : Int :=
  if v ≤ 2 then 2
  else if v % 2 = 0 then v
  else v - 1

/-- Model of `f32::round` on an exactly-represented rational: round half away from
zero.  Mathlib's `round` is round-half-up, which agrees on nonnegative
values; negative inputs are mirrored. -/
def rustRound (q : ℚ) : Int :=
  if q < 0 then -round (-q) else round q

/-- Model of `src/util.rs` `scaled_dimensions`: scale each span dimension, round,
then clamp to `[2, span]` and floor to even. -/
def scaled_dimensions (span_width span_height : Int) (scale : ℚ) : Int × Int :=
  let w := rustRound ((span_width : ℚ) * scale)
  let h := rustRound ((span_height : ℚ) * scale)
  (even_floor (clamp_i32 w 2 span_width), even_floor (clamp_i32 h 2 span_height))

/-! ## hyprland.rs: compute_monitor_span -/

/-- Model of Rust `Iterator::min` over a list (`monitors.iter().map(..).min()`). -/
def iterMin : List Int → Option Int
  | [] => none
  | x :: xs => some (xs.foldl min x)

/-- Model of Rust `Iterator::max` over a list. -/
def iterMax : List Int → Option Int
  | [] => none
  | x :: xs => some (xs.foldl max x)

/-- Model of `src/hyprland.rs` `compute_monitor_span`: error on an empty list,
otherwise `(min x, min y, max (x+w) - min x, max (y+h) - min y)`. -/
def compute_monitor_span (monitors : List Monitor) :
    Except String (Int × Int × Int × Int) :=
  if monitors.isEmpty then
    .error "No monitors detected."
  else
    let min_x := (iterMin (monitors.map Monitor.x)).getD 0
    let min_y := (iterMin (monitors.map Monitor.y)).getD 0
    let max_x := (iterMax (monitors.map (fun m => m.x + m.width))).getD 0
    let max_y := (iterMax (monitors.map (fun m => m.y + m.height))).getD 0
    .ok (min_x, min_y, max_x - min_x, max_y - min_y)

/-! ## gamescope.rs: size derivation -/

/-- Model of `src/gamescope.rs` `derive_internal_size`.  The Rust aspect-ratio
expressions `((w as f32 * span_height as f32) / span_width as f32).round()`
are modelled as exact rational division followed by `f32::round`. -/
def derive_internal_size (span_width span_height : Int) (render_scale : ℚ)
    (virtual_width virtual_height : Option Int) : Int × Int :=
  match virtual_width, virtual_height with
  | some w, some h =>
      (even_floor (clamp_i32 w 2 span_width), even_floor (clamp_i32 h 2 span_height))
  | some w, none =>
      let w := even_floor (clamp_i32 w 2 span_width)
      let h := rustRound (((w : ℚ) * (span_height : ℚ)) / (span_width : ℚ))
      (w, even_floor (clamp_i32 h 2 span_height))
  | none, some h =>
      let h := even_floor (clamp_i32 h 2 span_height)
      let w := rustRound (((h : ℚ) * (span_width : ℚ)) / (span_height : ℚ))
      (even_floor (clamp_i32 w 2 span_width), h)
  | none, none => scaled_dimensions span_width span_height render_scale

/-- Model of `src/gamescope.rs` `derive_output_size`. -/
def derive_output_size (span_width span_height : Int)
    (output_width output_height : Option Int) : Int × Int :=
  match output_width, output_height with
  | some w, some h =>
      (even_floor (clamp_i32 w 2 span_width), even_floor (clamp_i32 h 2 span_height))
  | some w, none =>
      let w := even_floor (clamp_i32 w 2 span_width)
      let h := rustRound (((w : ℚ) * (span_height : ℚ)) / (span_width : ℚ))
      (w, even_floor (clamp_i32 h 2 span_height))
  | none, some h =>
      let h := even_floor (clamp_i32 h 2 span_height)
      let w := rustRound (((h : ℚ) * (span_width : ℚ)) / (span_height : ℚ))
      (even_floor (clamp_i32 w 2 span_width), h)
  | none, none => (span_width, span_height)

/-! ## gamescope.rs: argument construction -/

/-- Model of `src/gamescope.rs` `has_arg`: a flag is present if some argument equals
it, starts with `flag=`, or (for short two-character flags) starts with the
flag and carries a joined value (`-W1920`).  Byte length and character
length agree here: the flags checked are ASCII, and for an argument with
the two-byte ASCII prefix both length tests reduce to "the rest is
non-empty". -/
def has_arg (args : List String) (flag : String) : Bool :=
  args.any (fun arg =>
    arg == flag || arg.startsWith (flag ++ "=") ||
      (flag.length == 2 && arg.startsWith flag && arg.length > 2))

/-- The `pre` part of the split at the first `"--"` in
`build_gamescope_args_with_internal` (`args[..idx]`, or all of `args` when
there is no separator). -/
def argsSplitPre (args : List String) : List String :=
  match args.findIdx? (fun a => a == "--") with
  | some idx => args.take idx
  | none => args

/-- The `post` part of the split at the first `"--"` (`args[idx..]`,
separator included; empty when there is no separator). -/
def argsSplitPost (args : List String) : List String :=
  match args.findIdx? (fun a => a == "--") with
  | some idx => args.drop idx
  | none => []

/-- Model of `src/gamescope.rs` `build_gamescope_args_with_internal`: split at the
first `"--"`, decide all four presence tests on the pre-separator part,
append the missing size flags, then re-attach the post-separator part. -/
def build_gamescope_args_with_internal (args : List String)
    (span_width span_height internal_width internal_height : Int) : List String :=
  let pre := argsSplitPre args
  let post := argsSplitPost args
  let has_output_w := has_arg pre "-W" || has_arg pre "--output-width"
  let has_output_h := has_arg pre "-H" || has_arg pre "--output-height"
  let has_nested_w := has_arg pre "-w" || has_arg pre "--nested-width"
  let has_nested_h := has_arg pre "-h" || has_arg pre "--nested-height"
  let pre := if has_output_w then pre else pre ++ ["-W", toString span_width]
  let pre := if has_output_h then pre else pre ++ ["-H", toString span_height]
  let pre := if has_nested_w then pre else pre ++ ["-w", toString internal_width]
  let pre := if has_nested_h then pre else pre ++ ["-h", toString internal_height]
  pre ++ post

/-! ## hyprland.rs: fit_window_to_span

The loop's effects are `hyprctl dispatch movewindowpixel` /
`resizewindowpixel` followed by a `get_client_geometry` query.  The
dispatches are modelled as succeeding (a dispatch failure propagates as an
`Err` before any geometry logic runs, which is outside the convergence
behaviour under study); the geometry query is the oracle `observe`,
indexed by the attempt number because the external window can answer
differently on every poll.  `observe a w h = none` models
`get_client_geometry` returning `Ok(None)` (the `else continue` branch). -/

/-- Trace of one `fit_window_to_span` call: every `resizewindowpixel`
request issued (as `(width, height)` pairs, in order) and the attempt
number at which the geometry check succeeded, if any. -/
structure FitRun where
  requests : List (Int × Int)
  converged : Option ℕ
deriving Repr, DecidableEq

/-- The `for attempt in 1..=4` loop of `fit_window_to_span`, with explicit
fuel and the mutable `req_w`/`req_h` accumulator threaded through. -/
def fitGo (observe : ℕ → Int → Int → Option (Int × Int × Int × Int))
    (target_x target_y target_w target_h : Int) :
    ℕ → ℕ → Int → Int → FitRun
  | _, 0, _, _ => ⟨[], none⟩
  | attempt, fuel+1, req_w, req_h =>
    match observe attempt req_w req_h with
    | none =>
        let rest := fitGo observe target_x target_y target_w target_h
          (attempt+1) fuel req_w req_h
        ⟨(req_w, req_h) :: rest.requests, rest.converged⟩
    | some (x, y, w, h) =>
        if |x - target_x| ≤ 1 ∧ |y - target_y| ≤ 1 ∧
            |w - target_w| ≤ 1 ∧ |h - target_h| ≤ 1 then
          ⟨[(req_w, req_h)], some attempt⟩
        else
          let rest := fitGo observe target_x target_y target_w target_h
            (attempt+1) fuel
            (max (req_w + (target_w - w)) 2) (max (req_h + (target_h - h)) 2)
          ⟨(req_w, req_h) :: rest.requests, rest.converged⟩

/-- Outcome of `fit_window_to_span`: the returned value (always `Ok(())`
once the dispatches succeed), whether the post-loop warning was printed,
and the request trace. -/
structure FitResult where
  result : Except String Unit
  warned : Bool
  requests : List (Int × Int)
  converged : Option ℕ
deriving Repr

/-- Model of `src/hyprland.rs` `fit_window_to_span`: run up to 4 attempts starting
from the target size; on convergence return `Ok` silently, otherwise print
one of the two warnings and still return `Ok`. -/
def fit_window_to_span (observe : ℕ → Int → Int → Option (Int × Int × Int × Int))
    (target_x target_y target_w target_h : Int) : FitResult :=
  let run := fitGo observe target_x target_y target_w target_h 1 4 target_w target_h
  match run.converged with
  | some a => ⟨.ok (), false, run.requests, some a⟩
  | none => ⟨.ok (), true, run.requests, none⟩

/-- A window whose measured geometry differs from the requested geometry by
a constant per-axis offset (the spec's "simulated decoration offset"): each
attempt moves to the exact target position and resizes to the requested
size, and the measurement comes back shifted by `(dx, dy, dw, dh)`. -/
def constOffsetObserve (target_x target_y dx dy dw dh : Int) :
    ℕ → Int → Int → Option (Int × Int × Int × Int) :=
  fun _ req_w req_h => some (target_x + dx, target_y + dy, req_w + dw, req_h + dh)

/-! ## gamescope.rs: ctrl-c shutdown guard -/

/-- The ctrl-c handler body from `gamescope_up`: `shutting_down.swap(true)`
returns the previous value; if it was already `true` the handler returns
immediately, otherwise teardown runs.  Result: (new guard value, whether
teardown ran).  The `SeqCst` atomic swap linearises concurrent deliveries,
so a sequence of handler invocations on the shared guard is a faithful
model. -/
def ctrlc_handler (shutting_down : Bool) : Bool × Bool :=
  if shutting_down then (true, false) else (true, true)

/-- Number of teardown executions across `n` signal deliveries starting
from guard state `g`. -/
def signalTeardownCount : ℕ → Bool → ℕ
  | 0, _ => 0
  | n+1, g =>
      let step := ctrlc_handler g
      (if step.2 then 1 else 0) + signalTeardownCount n step.1

/-! ## gamescope.rs: gamescope_down

`gamescope_down` is effectful; it is modelled as a function of the loaded
session state (which cleanup is recorded as needed) and of which external
steps fail, returning the list of attempted cleanup steps in order and
whether the function returned `Ok`.  The correspondence to the source:
`kill` is attempted unconditionally and both outcomes only log;
`std::fs::remove_file(&state_file_path)?` propagates failure with `?`;
`maybe_start_waybar(false)?` (only when `waybar_was_stopped`) propagates
failure with `?`; `unregister_exit_hotkey` (only when a hotkey was
recorded) has its result discarded with `let _ =`. -/

/-- The four cleanup sub-steps of `gamescope_down` after state load. -/
inductive CleanupStep where
  | killProcess
  | removeStateFile
  | restoreWaybar
  | unregisterHotkey
deriving Repr, DecidableEq

/-- The parts of the loaded `GamescopeState` that steer teardown. -/
structure DownState where
  waybar_was_stopped : Bool
  has_exit_hotkey : Bool
deriving Repr, DecidableEq

/-- Which external teardown actions fail. -/
structure DownEnv where
  kill_fails : Bool
  remove_fails : Bool
  waybar_restore_fails : Bool
  unregister_fails : Bool
deriving Repr, DecidableEq

/-- Model of `src/gamescope.rs` `gamescope_down` after the state file is loaded:
the attempted steps in program order, and whether the call returned `Ok`. -/
def gamescope_down (st : DownState) (env : DownEnv) : List CleanupStep × Bool :=
  let steps := [CleanupStep.killProcess, CleanupStep.removeStateFile]
  if env.remove_fails then (steps, false)
  else if st.waybar_was_stopped then
    let steps := steps ++ [CleanupStep.restoreWaybar]
    if env.waybar_restore_fails then (steps, false)
    else if st.has_exit_hotkey then (steps ++ [CleanupStep.unregisterHotkey], true)
    else (steps, true)
  else if st.has_exit_hotkey then (steps ++ [CleanupStep.unregisterHotkey], true)
  else (steps, true)

/-! ## Helper lemmas -/

/-- Clamp-then-even-floor lands on an even value in `[2, bound]` whenever
the bound is at least 2. -/
lemma even_floor_clamp_spec (v b : Int) (hb : 2 ≤ b) :
    even_floor (clamp_i32 v 2 b) % 2 = 0 ∧
      2 ≤ even_floor (clamp_i32 v 2 b) ∧ even_floor (clamp_i32 v 2 b) ≤ b := by
  unfold even_floor clamp_i32
  split
  · omega
  · split <;> omega

/-- Clamp-then-even-floor is idempotent for bounds at least 2. -/
lemma even_floor_clamp_idem (v b : Int) (hb : 2 ≤ b) :
    even_floor (clamp_i32 (even_floor (clamp_i32 v 2 b)) 2 b)
      = even_floor (clamp_i32 v 2 b) := by
  obtain ⟨he, h2, hub⟩ := even_floor_clamp_spec v b hb
  set e := even_floor (clamp_i32 v 2 b) with hdef
  have hc : clamp_i32 e 2 b = e := by
    unfold clamp_i32; omega
  rw [hc]
  unfold even_floor
  split
  all_goals omega

/-- The rounded aspect-ratio inference `rustRound (a * c / b)` is within
half a unit of the exact ratio: `2 * |rustRound (a*c/b) * b - a*c| ≤ b`
for a positive denominator and nonnegative numerator factors. -/
lemma rustRound_ratio_close (a c b : Int) (hb : 0 < b) (ha : 0 ≤ a) (hc : 0 ≤ c) :
    2 * |rustRound ((a : ℚ) * (c : ℚ) / (b : ℚ)) * b - a * c| ≤ b := by
  have hbq : (0 : ℚ) < (b : ℚ) := by exact_mod_cast hb
  have hq : (0 : ℚ) ≤ (a : ℚ) * (c : ℚ) / (b : ℚ) := by positivity
  rw [rustRound, if_neg (not_lt.mpr hq)]
  set q : ℚ := (a : ℚ) * (c : ℚ) / (b : ℚ) with hqdef
  have hmul : q * (b : ℚ) = (a : ℚ) * (c : ℚ) := by
    rw [hqdef, div_mul_cancel₀]
    exact ne_of_gt hbq
  have habs : |(round q : ℚ) - q| ≤ 1 / 2 := by
    rw [abs_sub_comm]; exact abs_sub_round q
  have key : |(round q : ℚ) * (b : ℚ) - (a : ℚ) * (c : ℚ)| ≤ (b : ℚ) / 2 := by
    calc |(round q : ℚ) * (b : ℚ) - (a : ℚ) * (c : ℚ)|
        = |((round q : ℚ) - q) * (b : ℚ)| := by rw [sub_mul, hmul]
      _ = |(round q : ℚ) - q| * |(b : ℚ)| := abs_mul _ _
      _ ≤ (1 / 2) * |(b : ℚ)| := by
          exact mul_le_mul_of_nonneg_right habs (abs_nonneg _)
      _ = (b : ℚ) / 2 := by rw [abs_of_pos hbq]; ring
  have goalQ : (2 : ℚ) * |(round q : ℚ) * (b : ℚ) - (a : ℚ) * (c : ℚ)| ≤ (b : ℚ) := by
    nlinarith [key, abs_nonneg ((round q : ℚ) * (b : ℚ) - (a : ℚ) * (c : ℚ))]
  exact_mod_cast goalQ

/-- A left fold with `min` is a lower bound for its initial value. -/
lemma foldl_min_le_init (xs : List Int) (x : Int) : xs.foldl min x ≤ x := by
  induction xs generalizing x with
  | nil => simp
  | cons a xs ih => exact le_trans (ih (min x a)) (min_le_left x a)

/-- A left fold with `min` is a lower bound for every list element. -/
lemma foldl_min_le_mem (xs : List Int) (x : Int) :
    ∀ y ∈ xs, xs.foldl min x ≤ y := by
  induction xs generalizing x with
  | nil => intro y hy; cases hy
  | cons a xs ih =>
      intro y hy
      rcases List.mem_cons.mp hy with rfl | hy
      · exact le_trans (foldl_min_le_init xs (min x y)) (min_le_right x y)
      · exact ih (min x a) y hy

/-- A left fold with `min` is attained: it equals the initial value or some
list element. -/
lemma foldl_min_attained (xs : List Int) (x : Int) :
    xs.foldl min x = x ∨ xs.foldl min x ∈ xs := by
  induction xs generalizing x with
  | nil => exact Or.inl rfl
  | cons a xs ih =>
      rcases ih (min x a) with h | h
      · rcases min_cases x a with ⟨hm, _⟩ | ⟨hm, _⟩
        · exact Or.inl (by rw [List.foldl_cons, h, hm])
        · exact Or.inr (by rw [List.foldl_cons, h, hm]; exact List.mem_cons_self a xs)
      · exact Or.inr (List.mem_cons_of_mem a h)

/-- A left fold with `max` is an upper bound for its initial value. -/
lemma foldl_max_ge_init (xs : List Int) (x : Int) : x ≤ xs.foldl max x := by
  induction xs generalizing x with
  | nil => simp
  | cons a xs ih => exact le_trans (le_max_left x a) (ih (max x a))

/-- A left fold with `max` is an upper bound for every list element. -/
lemma foldl_max_ge_mem (xs : List Int) (x : Int) :
    ∀ y ∈ xs, y ≤ xs.foldl max x := by
  induction xs generalizing x with
  | nil => intro y hy; cases hy
  | cons a xs ih =>
      intro y hy
      rcases List.mem_cons.mp hy with rfl | hy
      · exact le_trans (le_max_right x y) (foldl_max_ge_init xs (max x y))
      · exact ih (max x a) y hy

/-- A left fold with `max` is attained: it equals the initial value or some
list element. -/
lemma foldl_max_attained (xs : List Int) (x : Int) :
    xs.foldl max x = x ∨ xs.foldl max x ∈ xs := by
  induction xs generalizing x with
  | nil => exact Or.inl rfl
  | cons a xs ih =>
      rcases ih (max x a) with h | h
      · rcases max_cases x a with ⟨hm, _⟩ | ⟨hm, _⟩
        · exact Or.inl (by rw [List.foldl_cons, h, hm])
        · exact Or.inr (by rw [List.foldl_cons, h, hm]; exact List.mem_cons_self a xs)
      · exact Or.inr (List.mem_cons_of_mem a h)

/-- One fit attempt that measures within tolerance stops the loop at the
current attempt, having issued exactly this request. -/
lemma fitGo_converge_now {observe : ℕ → Int → Int → Option (Int × Int × Int × Int)}
    {tx ty tw th : Int} {attempt fuel : ℕ} {rqw rqh x y w h : Int}
    (hobs : observe attempt rqw rqh = some (x, y, w, h))
    (hok : |x - tx| ≤ 1 ∧ |y - ty| ≤ 1 ∧ |w - tw| ≤ 1 ∧ |h - th| ≤ 1) :
    fitGo observe tx ty tw th attempt (fuel + 1) rqw rqh = ⟨[(rqw, rqh)], some attempt⟩ := by
  simp only [fitGo, hobs]
  rw [if_pos hok]

/-- One fit attempt that measures out of tolerance recurses with the
error-compensated request. -/
lemma fitGo_step_mismatch {observe : ℕ → Int → Int → Option (Int × Int × Int × Int)}
    {tx ty tw th : Int} {attempt fuel : ℕ} {rqw rqh x y w h : Int}
    (hobs : observe attempt rqw rqh = some (x, y, w, h))
    (hbad : ¬(|x - tx| ≤ 1 ∧ |y - ty| ≤ 1 ∧ |w - tw| ≤ 1 ∧ |h - th| ≤ 1)) :
    fitGo observe tx ty tw th attempt (fuel + 1) rqw rqh =
      ⟨(rqw, rqh) ::
        (fitGo observe tx ty tw th (attempt + 1) fuel
          (max (rqw + (tw - w)) 2) (max (rqh + (th - h)) 2)).requests,
       (fitGo observe tx ty tw th (attempt + 1) fuel
          (max (rqw + (tw - w)) 2) (max (rqh + (th - h)) 2)).converged⟩ := by
  simp only [fitGo, hobs]
  rw [if_neg hbad]

/-- Every request issued by the loop keeps both dimensions at least 2,
provided the starting request does. -/
lemma fitGo_requests_ge_two (observe : ℕ → Int → Int → Option (Int × Int × Int × Int))
    (tx ty tw th : Int) :
    ∀ (fuel attempt : ℕ) (rqw rqh : Int), 2 ≤ rqw → 2 ≤ rqh →
      ∀ p ∈ (fitGo observe tx ty tw th attempt fuel rqw rqh).requests,
        2 ≤ p.1 ∧ 2 ≤ p.2 := by
  intro fuel
  induction fuel with
  | zero => intro attempt rqw rqh h1 h2 p hp; simp [fitGo] at hp
  | succ n ih =>
      intro attempt rqw rqh h1 h2 p hp
      rcases hobs : observe attempt rqw rqh with _ | ⟨x, y, w, h⟩
      · simp only [fitGo, hobs] at hp
        rcases List.mem_cons.mp hp with rfl | hp
        · exact ⟨h1, h2⟩
        · exact ih (attempt + 1) rqw rqh h1 h2 p hp
      · simp only [fitGo, hobs] at hp
        by_cases hc : |x - tx| ≤ 1 ∧ |y - ty| ≤ 1 ∧ |w - tw| ≤ 1 ∧ |h - th| ≤ 1
        · rw [if_pos hc] at hp
          rcases List.mem_cons.mp hp with rfl | hp
          · exact ⟨h1, h2⟩
          · cases hp
        · rw [if_neg hc] at hp
          rcases List.mem_cons.mp hp with rfl | hp
          · exact ⟨h1, h2⟩
          · exact ih (attempt + 1) _ _ (le_max_right _ 2) (le_max_right _ 2) p hp

/-- The request trace of `fit_window_to_span` is that of the underlying
4-attempt loop started at the target size. -/
lemma fit_window_to_span_requests (observe : ℕ → Int → Int → Option (Int × Int × Int × Int))
    (tx ty tw th : Int) :
    (fit_window_to_span observe tx ty tw th).requests
      = (fitGo observe tx ty tw th 1 4 tw th).requests := by
  unfold fit_window_to_span
  rcases h : (fitGo observe tx ty tw th 1 4 tw th).converged with _ | a <;> simp [h]

/-- On the second attempt the compensated request lands within one pixel
of the target along an axis with constant offset `d`, provided the target
is at least 2 and the offset is benign (`|d| ≤ 1` or `t − d ≥ 2`). -/
lemma fit_axis_second_attempt (t d : Int) (ht : 2 ≤ t)
    (hd : |d| ≤ 1 ∨ 2 ≤ t - d) :
    |max (t + (t - (t + d))) 2 + d - t| ≤ 1 := by
  rw [abs_le]
  rcases hd with hd | hd
  · rw [abs_le] at hd
    constructor <;> omega
  · constructor <;> omega

/-! ## Claims -/

/-- C1: for every non-empty monitor list, `compute_monitor_span` returns
the bounding box of all monitor rectangles — it covers every monitor and
is contained in every box that covers all monitors — and the two-monitor
spec scenario yields origin (−1920, 0) and size 4480×1440. -/
theorem C1_compute_span_bounding_box :
    (∀ ms : List Monitor, ms ≠ [] →
      ∃ sx sy sw sh,
        compute_monitor_span ms = .ok (sx, sy, sw, sh)
        ∧ (∀ m ∈ ms, sx ≤ m.x ∧ m.x + m.width ≤ sx + sw
            ∧ sy ≤ m.y ∧ m.y + m.height ≤ sy + sh)
        ∧ (∀ ux uy uw uh : Int,
            (∀ m ∈ ms, ux ≤ m.x ∧ m.x + m.width ≤ ux + uw
              ∧ uy ≤ m.y ∧ m.y + m.height ≤ uy + uh) →
            ux ≤ sx ∧ sx + sw ≤ ux + uw ∧ uy ≤ sy ∧ sy + sh ≤ uy + uh))
    ∧ compute_monitor_span
        [{ name := some "left", width := 1920, height := 1080, x := -1920, y := 0 },
         { name := some "right", width := 2560, height := 1440, x := 0, y := 0 }]
      = .ok (-1920, 0, 4480, 1440) := by
  constructor
  · intro ms hne
    match ms, hne with
    | m :: rest, _ =>
      have hspan : compute_monitor_span (m :: rest) =
          .ok ((rest.map Monitor.x).foldl min m.x,
               (rest.map Monitor.y).foldl min m.y,
               (rest.map (fun mm => mm.x + mm.width)).foldl max (m.x + m.width)
                 - (rest.map Monitor.x).foldl min m.x,
               (rest.map (fun mm => mm.y + mm.height)).foldl max (m.y + m.height)
                 - (rest.map Monitor.y).foldl min m.y) := by
        simp [compute_monitor_span, iterMin, iterMax]
      refine ⟨_, _, _, _, hspan, ?_, ?_⟩
      · intro m' hm'
        rcases List.mem_cons.mp hm' with rfl | hmem
        · have h2 := foldl_max_ge_init (rest.map (fun mm => mm.x + mm.width)) (m'.x + m'.width)
          have h4 := foldl_max_ge_init (rest.map (fun mm => mm.y + mm.height)) (m'.y + m'.height)
          exact ⟨foldl_min_le_init _ _, by omega, foldl_min_le_init _ _, by omega⟩
        · have h1 := foldl_min_le_mem (rest.map Monitor.x) m.x m'.x
            (List.mem_map_of_mem Monitor.x hmem)
          have h2 := foldl_max_ge_mem (rest.map (fun mm => mm.x + mm.width)) (m.x + m.width)
            (m'.x + m'.width) (List.mem_map_of_mem (fun mm => mm.x + mm.width) hmem)
          have h3 := foldl_min_le_mem (rest.map Monitor.y) m.y m'.y
            (List.mem_map_of_mem Monitor.y hmem)
          have h4 := foldl_max_ge_mem (rest.map (fun mm => mm.y + mm.height)) (m.y + m.height)
            (m'.y + m'.height) (List.mem_map_of_mem (fun mm => mm.y + mm.height) hmem)
          exact ⟨h1, by omega, h3, by omega⟩
      · intro ux uy uw uh hcov
        have hhead := hcov m (List.mem_cons_self m rest)
        have hminx : ux ≤ (rest.map Monitor.x).foldl min m.x := by
          rcases foldl_min_attained (rest.map Monitor.x) m.x with h | h
          · rw [h]; exact hhead.1
          · obtain ⟨m', hm', hx⟩ := List.mem_map.mp h
            rw [← hx]; exact (hcov m' (List.mem_cons_of_mem m hm')).1
        have hminy : uy ≤ (rest.map Monitor.y).foldl min m.y := by
          rcases foldl_min_attained (rest.map Monitor.y) m.y with h | h
          · rw [h]; exact hhead.2.2.1
          · obtain ⟨m', hm', hy⟩ := List.mem_map.mp h
            rw [← hy]; exact (hcov m' (List.mem_cons_of_mem m hm')).2.2.1
        have hmaxx : (rest.map (fun mm => mm.x + mm.width)).foldl max (m.x + m.width)
            ≤ ux + uw := by
          rcases foldl_max_attained (rest.map (fun mm => mm.x + mm.width))
              (m.x + m.width) with h | h
          · rw [h]; exact hhead.2.1
          · obtain ⟨m', hm', hx⟩ := List.mem_map.mp h
            rw [← hx]; exact (hcov m' (List.mem_cons_of_mem m hm')).2.1
        have hmaxy : (rest.map (fun mm => mm.y + mm.height)).foldl max (m.y + m.height)
            ≤ uy + uh := by
          rcases foldl_max_attained (rest.map (fun mm => mm.y + mm.height))
              (m.y + m.height) with h | h
          · rw [h]; exact hhead.2.2.2
          · obtain ⟨m', hm', hy⟩ := List.mem_map.mp h
            rw [← hy]; exact (hcov m' (List.mem_cons_of_mem m hm')).2.2.2
        exact ⟨hminx, by omega, hminy, by omega⟩
  · rfl

/-- Witness for C1 at the two-monitor scenario list. -/
theorem C1_compute_span_bounding_box_witness :
    ∃ sx sy sw sh,
      compute_monitor_span
          [{ name := some "left", width := 1920, height := 1080, x := -1920, y := 0 },
           { name := some "right", width := 2560, height := 1440, x := 0, y := 0 }]
        = .ok (sx, sy, sw, sh)
      ∧ (∀ m ∈ [({ name := some "left", width := 1920, height := 1080,
                    x := -1920, y := 0 } : Monitor),
                { name := some "right", width := 2560, height := 1440, x := 0, y := 0 }],
          sx ≤ m.x ∧ m.x + m.width ≤ sx + sw ∧ sy ≤ m.y ∧ m.y + m.height ≤ sy + sh)
      ∧ (∀ ux uy uw uh : Int,
          (∀ m ∈ [({ name := some "left", width := 1920, height := 1080,
                      x := -1920, y := 0 } : Monitor),
                  { name := some "right", width := 2560, height := 1440, x := 0, y := 0 }],
            ux ≤ m.x ∧ m.x + m.width ≤ ux + uw ∧ uy ≤ m.y ∧ m.y + m.height ≤ uy + uh) →
          ux ≤ sx ∧ sx + sw ≤ ux + uw ∧ uy ≤ sy ∧ sy + sh ≤ uy + uh) :=
  C1_compute_span_bounding_box.1
    [{ name := some "left", width := 1920, height := 1080, x := -1920, y := 0 },
     { name := some "right", width := 2560, height := 1440, x := 0, y := 0 }]
    (by simp)

/-- C8: `compute_monitor_span` on the empty monitor list returns the
"No monitors detected." error; no span value is produced. -/
theorem C8_empty_monitor_list_is_error :
    compute_monitor_span [] = .error "No monitors detected."
      ∧ ∀ s, compute_monitor_span [] ≠ .ok s := by
  refine ⟨rfl, fun s h => ?_⟩
  simp [compute_monitor_span] at h

/-- C2 counterexample: the claim quantifies over every combination of
override inputs, but with no overrides at all `derive_output_size` returns
the span unchanged, so an odd span such as 5×5 yields the odd dimension 5
rather than an even value (the claimed bound-5 result 4). -/
theorem C2_counterexample_odd_passthrough :
    derive_output_size 5 5 none none = (5, 5)
      ∧ ¬ (derive_output_size 5 5 none none).1 % 2 = 0 := by
  constructor
  · rfl
  · decide

/-- C2 (amended): provided each bound is at least 2, `derive_internal_size`
returns even dimensions in `[2, bound]` for every scale and every override
combination, and `derive_output_size` does so whenever at least one
override is supplied; with no overrides `derive_output_size` returns the
span unchanged. -/
theorem C2_derived_sizes_even_and_bounded (b₁ b₂ : Int) (h₁ : 2 ≤ b₁) (h₂ : 2 ≤ b₂) :
    (∀ (scale : ℚ) (vw vh : Option Int),
      (derive_internal_size b₁ b₂ scale vw vh).1 % 2 = 0 ∧
      2 ≤ (derive_internal_size b₁ b₂ scale vw vh).1 ∧
      (derive_internal_size b₁ b₂ scale vw vh).1 ≤ b₁ ∧
      (derive_internal_size b₁ b₂ scale vw vh).2 % 2 = 0 ∧
      2 ≤ (derive_internal_size b₁ b₂ scale vw vh).2 ∧
      (derive_internal_size b₁ b₂ scale vw vh).2 ≤ b₂)
    ∧ (∀ (ow oh : Option Int), ow.isSome ∨ oh.isSome →
      (derive_output_size b₁ b₂ ow oh).1 % 2 = 0 ∧
      2 ≤ (derive_output_size b₁ b₂ ow oh).1 ∧
      (derive_output_size b₁ b₂ ow oh).1 ≤ b₁ ∧
      (derive_output_size b₁ b₂ ow oh).2 % 2 = 0 ∧
      2 ≤ (derive_output_size b₁ b₂ ow oh).2 ∧
      (derive_output_size b₁ b₂ ow oh).2 ≤ b₂)
    ∧ derive_output_size b₁ b₂ none none = (b₁, b₂) := by
  refine ⟨?_, ?_, rfl⟩
  · intro scale vw vh
    match vw, vh with
    | some w, some h =>
        obtain ⟨e1, e2, e3⟩ := even_floor_clamp_spec w b₁ h₁
        obtain ⟨f1, f2, f3⟩ := even_floor_clamp_spec h b₂ h₂
        exact ⟨e1, e2, e3, f1, f2, f3⟩
    | some w, none =>
        obtain ⟨e1, e2, e3⟩ := even_floor_clamp_spec w b₁ h₁
        obtain ⟨f1, f2, f3⟩ := even_floor_clamp_spec
          (rustRound (((even_floor (clamp_i32 w 2 b₁) : ℚ)) * (b₂ : ℚ) / (b₁ : ℚ))) b₂ h₂
        exact ⟨e1, e2, e3, f1, f2, f3⟩
    | none, some h =>
        obtain ⟨f1, f2, f3⟩ := even_floor_clamp_spec h b₂ h₂
        obtain ⟨e1, e2, e3⟩ := even_floor_clamp_spec
          (rustRound (((even_floor (clamp_i32 h 2 b₂) : ℚ)) * (b₁ : ℚ) / (b₂ : ℚ))) b₁ h₁
        exact ⟨e1, e2, e3, f1, f2, f3⟩
    | none, none =>
        obtain ⟨e1, e2, e3⟩ := even_floor_clamp_spec (rustRound ((b₁ : ℚ) * scale)) b₁ h₁
        obtain ⟨f1, f2, f3⟩ := even_floor_clamp_spec (rustRound ((b₂ : ℚ) * scale)) b₂ h₂
        exact ⟨e1, e2, e3, f1, f2, f3⟩
  · intro ow oh hsome
    match ow, oh with
    | some w, some h =>
        obtain ⟨e1, e2, e3⟩ := even_floor_clamp_spec w b₁ h₁
        obtain ⟨f1, f2, f3⟩ := even_floor_clamp_spec h b₂ h₂
        exact ⟨e1, e2, e3, f1, f2, f3⟩
    | some w, none =>
        obtain ⟨e1, e2, e3⟩ := even_floor_clamp_spec w b₁ h₁
        obtain ⟨f1, f2, f3⟩ := even_floor_clamp_spec
          (rustRound (((even_floor (clamp_i32 w 2 b₁) : ℚ)) * (b₂ : ℚ) / (b₁ : ℚ))) b₂ h₂
        exact ⟨e1, e2, e3, f1, f2, f3⟩
    | none, some h =>
        obtain ⟨f1, f2, f3⟩ := even_floor_clamp_spec h b₂ h₂
        obtain ⟨e1, e2, e3⟩ := even_floor_clamp_spec
          (rustRound (((even_floor (clamp_i32 h 2 b₂) : ℚ)) * (b₁ : ℚ) / (b₂ : ℚ))) b₁ h₁
        exact ⟨e1, e2, e3, f1, f2, f3⟩
    | none, none =>
        simp at hsome

/-- Witness for C2 (amended) at bounds 5×5, scale 1, no overrides
(the spec's degenerate example: result 4) and at output override (5, 5). -/
theorem C2_derived_sizes_even_and_bounded_witness :
    ((derive_internal_size 5 5 1 none none).1 % 2 = 0 ∧
      2 ≤ (derive_internal_size 5 5 1 none none).1 ∧
      (derive_internal_size 5 5 1 none none).1 ≤ 5 ∧
      (derive_internal_size 5 5 1 none none).2 % 2 = 0 ∧
      2 ≤ (derive_internal_size 5 5 1 none none).2 ∧
      (derive_internal_size 5 5 1 none none).2 ≤ 5)
    ∧ ((derive_output_size 5 5 (some 5) (some 5)).1 % 2 = 0 ∧
      2 ≤ (derive_output_size 5 5 (some 5) (some 5)).1 ∧
      (derive_output_size 5 5 (some 5) (some 5)).1 ≤ 5 ∧
      (derive_output_size 5 5 (some 5) (some 5)).2 % 2 = 0 ∧
      2 ≤ (derive_output_size 5 5 (some 5) (some 5)).2 ∧
      (derive_output_size 5 5 (some 5) (some 5)).2 ≤ 5) :=
  ⟨(C2_derived_sizes_even_and_bounded 5 5 (by norm_num) (by norm_num)).1 1 none none,
   (C2_derived_sizes_even_and_bounded 5 5 (by norm_num) (by norm_num)).2.1
     (some 5) (some 5) (Or.inl rfl)⟩

/-- C10: when both dimensions are explicitly overridden, re-deriving from
the already-derived pair is the identity, for `derive_output_size` and for
`derive_internal_size`, for spans with both dimensions at least 2. -/
theorem C10_derive_idempotent_on_overrides (sw sh a b : Int) (scale : ℚ)
    (h₁ : 2 ≤ sw) (h₂ : 2 ≤ sh) :
    derive_output_size sw sh
        (some (derive_output_size sw sh (some a) (some b)).1)
        (some (derive_output_size sw sh (some a) (some b)).2)
      = derive_output_size sw sh (some a) (some b)
    ∧ derive_internal_size sw sh scale
        (some (derive_internal_size sw sh scale (some a) (some b)).1)
        (some (derive_internal_size sw sh scale (some a) (some b)).2)
      = derive_internal_size sw sh scale (some a) (some b) := by
  constructor
  · show (even_floor (clamp_i32 (even_floor (clamp_i32 a 2 sw)) 2 sw),
          even_floor (clamp_i32 (even_floor (clamp_i32 b 2 sh)) 2 sh))
        = (even_floor (clamp_i32 a 2 sw), even_floor (clamp_i32 b 2 sh))
    rw [even_floor_clamp_idem a sw h₁, even_floor_clamp_idem b sh h₂]
  · show (even_floor (clamp_i32 (even_floor (clamp_i32 a 2 sw)) 2 sw),
          even_floor (clamp_i32 (even_floor (clamp_i32 b 2 sh)) 2 sh))
        = (even_floor (clamp_i32 a 2 sw), even_floor (clamp_i32 b 2 sh))
    rw [even_floor_clamp_idem a sw h₁, even_floor_clamp_idem b sh h₂]

/-- Witness for C10 at span 1920×1080 with overrides (1601, 7), scale ½. -/
theorem C10_derive_idempotent_on_overrides_witness :
    derive_output_size 1920 1080
        (some (derive_output_size 1920 1080 (some 1601) (some 7)).1)
        (some (derive_output_size 1920 1080 (some 1601) (some 7)).2)
      = derive_output_size 1920 1080 (some 1601) (some 7)
    ∧ derive_internal_size 1920 1080 (1 / 2)
        (some (derive_internal_size 1920 1080 (1 / 2) (some 1601) (some 7)).1)
        (some (derive_internal_size 1920 1080 (1 / 2) (some 1601) (some 7)).2)
      = derive_internal_size 1920 1080 (1 / 2) (some 1601) (some 7) :=
  C10_derive_idempotent_on_overrides 1920 1080 1601 7 (1 / 2)
    (by norm_num) (by norm_num)

/-- C7: with exactly one internal dimension overridden,
`derive_internal_size` clamps and evens that dimension first, infers the
other by rounding `given * other_bound / given_bound`, then clamps/evens
it; the rounded inference stays within half a unit of the exact aspect
ratio (`2·|h·sw − w·sh| ≤ sw` before the final clamp/even); and the
spec scenario 1920×1080 with `virtual_width = 1601` yields (1600, 900). -/
theorem C7_single_override_infers_aspect (sw sh w₀ h₀ : Int) (scale : ℚ)
    (hsw : 2 ≤ sw) (hsh : 2 ≤ sh) :
    (derive_internal_size sw sh scale (some w₀) none
      = (even_floor (clamp_i32 w₀ 2 sw),
         even_floor (clamp_i32
           (rustRound ((even_floor (clamp_i32 w₀ 2 sw) : ℚ) * (sh : ℚ) / (sw : ℚ)))
           2 sh)))
    ∧ (derive_internal_size sw sh scale none (some h₀)
      = (even_floor (clamp_i32
           (rustRound ((even_floor (clamp_i32 h₀ 2 sh) : ℚ) * (sw : ℚ) / (sh : ℚ)))
           2 sw),
         even_floor (clamp_i32 h₀ 2 sh)))
    ∧ 2 * |rustRound ((even_floor (clamp_i32 w₀ 2 sw) : ℚ) * (sh : ℚ) / (sw : ℚ)) * sw
          - even_floor (clamp_i32 w₀ 2 sw) * sh| ≤ sw
    ∧ derive_internal_size 1920 1080 scale (some 1601) none = (1600, 900) := by
  refine ⟨rfl, rfl, ?_, ?_⟩
  · obtain ⟨_, h2, _⟩ := even_floor_clamp_spec w₀ sw hsw
    exact rustRound_ratio_close (even_floor (clamp_i32 w₀ 2 sw)) sh sw
      (by omega) (by omega) (by omega)
  · show (even_floor (clamp_i32 1601 2 1920),
        even_floor (clamp_i32
          (rustRound ((even_floor (clamp_i32 1601 2 1920) : ℚ) * (1080 : ℚ) / (1920 : ℚ)))
          2 1080)) = (1600, 900)
    norm_num [rustRound, round_eq, even_floor, clamp_i32]

/-- Witness for C7 at span 1920×1080, width override 1601, height
override 700, scale 1. -/
theorem C7_single_override_infers_aspect_witness :
    (derive_internal_size 1920 1080 1 (some 1601) none
      = (even_floor (clamp_i32 1601 2 1920),
         even_floor (clamp_i32
           (rustRound ((even_floor (clamp_i32 1601 2 1920) : ℚ) * (1080 : ℚ) / (1920 : ℚ)))
           2 1080)))
    ∧ (derive_internal_size 1920 1080 1 none (some 700)
      = (even_floor (clamp_i32
           (rustRound ((even_floor (clamp_i32 700 2 1080) : ℚ) * (1920 : ℚ) / (1080 : ℚ)))
           2 1920),
         even_floor (clamp_i32 700 2 1080)))
    ∧ 2 * |rustRound ((even_floor (clamp_i32 1601 2 1920) : ℚ) * (1080 : ℚ) / (1920 : ℚ)) * 1920
          - even_floor (clamp_i32 1601 2 1920) * 1080| ≤ 1920
    ∧ derive_internal_size 1920 1080 1 (some 1601) none = (1600, 900) :=
  C7_single_override_infers_aspect 1920 1080 1601 700 1 (by norm_num) (by norm_num)

/-- C9: during `fit_window_to_span` against a target at least 2×2, every
resize request issued keeps both dimensions at least 2, for any sequence
of observed geometries — the accumulator starts at the target and every
compensation is floored at 2. -/
theorem C9_resize_requests_at_least_two
    (observe : ℕ → Int → Int → Option (Int × Int × Int × Int))
    (tx ty tw th : Int) (h₁ : 2 ≤ tw) (h₂ : 2 ≤ th) :
    ∀ p ∈ (fit_window_to_span observe tx ty tw th).requests,
      2 ≤ p.1 ∧ 2 ≤ p.2 := by
  rw [fit_window_to_span_requests]
  exact fitGo_requests_ge_two observe tx ty tw th 4 1 tw th h₁ h₂

/-- Witness for C9: the first request of a run against target 100×100
where the window is never found. -/
theorem C9_resize_requests_at_least_two_witness :
    2 ≤ ((100 : Int), (100 : Int)).1 ∧ 2 ≤ ((100 : Int), (100 : Int)).2 :=
  C9_resize_requests_at_least_two (fun _ _ _ => none) 0 0 100 100
    (by norm_num) (by norm_num) (100, 100) (by decide)

/-- C3 counterexample: with the constant per-axis offset (5, 0, 0, 0) —
measured geometry differs from every request by exactly this offset — the
loop never converges (the compensation only adjusts size, never position),
so the claim's "succeeds within at most 4 attempts for every constant
per-axis offset" is false; the run still warns and returns `Ok`. -/
theorem C3_counterexample_position_offset :
    (fit_window_to_span (constOffsetObserve 0 0 5 0 0 0) 0 0 100 100).converged = none
    ∧ (fit_window_to_span (constOffsetObserve 0 0 5 0 0 0) 0 0 100 100).warned = true
    ∧ (fit_window_to_span (constOffsetObserve 0 0 5 0 0 0) 0 0 100 100).result
        = .ok () := by
  refine ⟨by decide, by decide, ?_⟩
  have h : (fit_window_to_span (constOffsetObserve 0 0 5 0 0 0) 0 0 100 100).converged
      = none := by decide
  unfold fit_window_to_span at h ⊢
  rcases hc : (fitGo (constOffsetObserve 0 0 5 0 0 0) 0 0 100 100 1 4 100 100).converged
    with _ | a <;> simp [hc] at h ⊢

/-- C3 (amended): the fit loop succeeds within at most 4 attempts (in
fact 2) when the constant per-axis measurement offsets are benign: the
position offsets are within the 1-pixel tolerance and, per size axis, the
offset is within 1 pixel or leaves the compensated request `t − d` at
least 2; and for every observation behaviour whatsoever the function
returns success — warning instead of failing when it never converged. -/
theorem C3_fit_constant_offset_converges :
    (∀ tx ty tw th dx dy dw dh : Int,
      |dx| ≤ 1 → |dy| ≤ 1 → 2 ≤ tw → 2 ≤ th →
      (|dw| ≤ 1 ∨ 2 ≤ tw - dw) → (|dh| ≤ 1 ∨ 2 ≤ th - dh) →
      (fit_window_to_span (constOffsetObserve tx ty dx dy dw dh) tx ty tw th).converged.isSome
          = true
        ∧ (∀ a, (fit_window_to_span (constOffsetObserve tx ty dx dy dw dh)
            tx ty tw th).converged = some a → a ≤ 4)
        ∧ (fit_window_to_span (constOffsetObserve tx ty dx dy dw dh) tx ty tw th).result
            = .ok ()
        ∧ (fit_window_to_span (constOffsetObserve tx ty dx dy dw dh) tx ty tw th).warned
            = false)
    ∧ (∀ (observe : ℕ → Int → Int → Option (Int × Int × Int × Int)) (tx ty tw th : Int),
      (fit_window_to_span observe tx ty tw th).result = .ok ()
      ∧ ((fit_window_to_span observe tx ty tw th).converged = none →
          (fit_window_to_span observe tx ty tw th).warned = true)) := by
  constructor
  · intro tx ty tw th dx dy dw dh hdx hdy htw hth hdw hdh
    have hx : |tx + dx - tx| ≤ 1 := by rwa [show tx + dx - tx = dx from by ring]
    have hy : |ty + dy - ty| ≤ 1 := by rwa [show ty + dy - ty = dy from by ring]
    have hrun : ∃ a, a ≤ 4 ∧
        fitGo (constOffsetObserve tx ty dx dy dw dh) tx ty tw th 1 4 tw th
          = ⟨(fitGo (constOffsetObserve tx ty dx dy dw dh) tx ty tw th 1 4 tw th).requests,
             some a⟩ := by
      by_cases hfirst : |dw| ≤ 1 ∧ |dh| ≤ 1
      · have hw : |tw + dw - tw| ≤ 1 := by
          rw [show tw + dw - tw = dw from by ring]; exact hfirst.1
        have hh : |th + dh - th| ≤ 1 := by
          rw [show th + dh - th = dh from by ring]; exact hfirst.2
        have h1 : fitGo (constOffsetObserve tx ty dx dy dw dh) tx ty tw th 1 4 tw th
            = ⟨[(tw, th)], some 1⟩ :=
          fitGo_converge_now rfl ⟨hx, hy, hw, hh⟩
        exact ⟨1, by norm_num, by rw [h1]⟩
      · have hbad : ¬(|tx + dx - tx| ≤ 1 ∧ |ty + dy - ty| ≤ 1 ∧
            |tw + dw - tw| ≤ 1 ∧ |th + dh - th| ≤ 1) := by
          intro hcon
          obtain ⟨_, _, h3, h4⟩ := hcon
          rw [show tw + dw - tw = dw from by ring] at h3
          rw [show th + dh - th = dh from by ring] at h4
          exact hfirst ⟨h3, h4⟩
        have hw2 : |max (tw + (tw - (tw + dw))) 2 + dw - tw| ≤ 1 :=
          fit_axis_second_attempt tw dw htw hdw
        have hh2 : |max (th + (th - (th + dh))) 2 + dh - th| ≤ 1 :=
          fit_axis_second_attempt th dh hth hdh
        have h2 : fitGo (constOffsetObserve tx ty dx dy dw dh) tx ty tw th 2 3
              (max (tw + (tw - (tw + dw))) 2) (max (th + (th - (th + dh))) 2)
            = ⟨[(max (tw + (tw - (tw + dw))) 2, max (th + (th - (th + dh))) 2)], some 2⟩ :=
          fitGo_converge_now rfl ⟨hx, hy, hw2, hh2⟩
        have h1 : fitGo (constOffsetObserve tx ty dx dy dw dh) tx ty tw th 1 4 tw th
            = ⟨(tw, th) ::
                (fitGo (constOffsetObserve tx ty dx dy dw dh) tx ty tw th 2 3
                  (max (tw + (tw - (tw + dw))) 2) (max (th + (th - (th + dh))) 2)).requests,
               (fitGo (constOffsetObserve tx ty dx dy dw dh) tx ty tw th 2 3
                  (max (tw + (tw - (tw + dw))) 2) (max (th + (th - (th + dh))) 2)).converged⟩ :=
          fitGo_step_mismatch rfl hbad
        rw [h2] at h1
        exact ⟨2, by norm_num, by rw [h1]⟩
    obtain ⟨a, ha, hrun⟩ := hrun
    have hfit : fit_window_to_span (constOffsetObserve tx ty dx dy dw dh) tx ty tw th
        = ⟨.ok (), false,
           (fitGo (constOffsetObserve tx ty dx dy dw dh) tx ty tw th 1 4 tw th).requests,
           some a⟩ := by
      unfold fit_window_to_span
      rw [hrun]
    rw [hfit]
    exact ⟨rfl, fun b hb => by cases hb; exact ha, rfl, rfl⟩
  · intro observe tx ty tw th
    unfold fit_window_to_span
    rcases hc : (fitGo observe tx ty tw th 1 4 tw th).converged with _ | a <;> simp [hc]

/-- Witness for C3 (amended): target 100×100, decoration offset
(1, 0, 10, 10) converges; the never-found window run still warns. -/
theorem C3_fit_constant_offset_converges_witness :
    ((fit_window_to_span (constOffsetObserve 0 0 1 0 10 10) 0 0 100 100).converged.isSome
        = true
      ∧ (fit_window_to_span (constOffsetObserve 0 0 1 0 10 10) 0 0 100 100).result = .ok ()
      ∧ (fit_window_to_span (constOffsetObserve 0 0 1 0 10 10) 0 0 100 100).warned = false
      ∧ (2 : ℕ) ≤ 4)
    ∧ (fit_window_to_span (fun _ _ _ => none) 0 0 100 100).warned = true :=
  have h := C3_fit_constant_offset_converges.1 0 0 100 100 1 0 10 10
    (by norm_num) (by norm_num) (by norm_num) (by norm_num)
    (Or.inr (by norm_num)) (Or.inr (by norm_num))
  ⟨⟨h.1, h.2.2.1, h.2.2.2, h.2.1 2 (by decide)⟩,
   (C3_fit_constant_offset_converges.2 (fun _ _ _ => none) 0 0 100 100).2 (by decide)⟩

/-- The guard stays `true` forever once set: later deliveries never run
teardown. -/
lemma signalTeardownCount_guard_set (n : ℕ) : signalTeardownCount n true = 0 := by
  induction n with
  | zero => rfl
  | succ n ih => simp [signalTeardownCount, ctrlc_handler, ih]

/-- C5: the interrupt handler swaps the shutting-down guard to `true` and
is a no-op when the guard was already set, so across any number of signal
deliveries teardown runs at most once — and with two or more deliveries
from a fresh guard it runs exactly once (on the first delivery). -/
theorem C5_interrupt_teardown_at_most_once :
    (∀ (n : ℕ) (g : Bool), signalTeardownCount n g ≤ 1)
    ∧ ctrlc_handler true = (true, false)
    ∧ ctrlc_handler false = (true, true)
    ∧ (∀ n : ℕ, 2 ≤ n → signalTeardownCount n false = 1) := by
  refine ⟨?_, rfl, rfl, ?_⟩
  · intro n g
    match n with
    | 0 => exact Nat.zero_le 1
    | n + 1 =>
        cases g <;>
          simp [signalTeardownCount, ctrlc_handler, signalTeardownCount_guard_set]
  · intro n hn
    match n, hn with
    | n + 1, _ =>
        simp [signalTeardownCount, ctrlc_handler, signalTeardownCount_guard_set]

/-- Witness for C5: two rapid deliveries run teardown exactly once. -/
theorem C5_interrupt_teardown_at_most_once_witness :
    signalTeardownCount 2 false = 1 :=
  C5_interrupt_teardown_at_most_once.2.2.2 2 (by norm_num)

/-- C4 counterexample: with state recording a stopped waybar and a bound
hotkey, a failure deleting the session state file (propagated by `?`)
aborts teardown before the waybar restore and hotkey unregister steps, so
"a failure in any one step does not prevent the remaining cleanup steps"
is false for the state-file step. -/
theorem C4_counterexample_remove_failure_blocks_rest :
    (gamescope_down ⟨true, true⟩ ⟨false, true, false, false⟩).1
      = [CleanupStep.killProcess, CleanupStep.removeStateFile]
    ∧ CleanupStep.restoreWaybar ∉ (gamescope_down ⟨true, true⟩ ⟨false, true, false, false⟩).1
    ∧ CleanupStep.unregisterHotkey
        ∉ (gamescope_down ⟨true, true⟩ ⟨false, true, false, false⟩).1 := by
  refine ⟨rfl, ?_, ?_⟩ <;> decide

/-- C4 (amended): after state load the kill step is always attempted and
its failure never blocks the state-file removal (nor, together with an
ignored unregister failure, anything else — the outcome is independent of
those two failure flags); but a state-file removal failure aborts the run
before waybar restore and hotkey unregister and returns an error, and a
waybar-restore failure aborts before hotkey unregister; when the earlier
steps succeed the recorded waybar restore and hotkey unregister are
attempted and the call returns `Ok`. -/
theorem C4_teardown_step_independence (st : DownState) (env : DownEnv) :
    (CleanupStep.killProcess ∈ (gamescope_down st env).1
      ∧ CleanupStep.removeStateFile ∈ (gamescope_down st env).1)
    ∧ gamescope_down st env
        = gamescope_down st ⟨false, env.remove_fails, env.waybar_restore_fails, false⟩
    ∧ (env.remove_fails = true →
        (gamescope_down st env).1 = [CleanupStep.killProcess, CleanupStep.removeStateFile]
        ∧ (gamescope_down st env).2 = false)
    ∧ (env.remove_fails = false → st.waybar_was_stopped = true →
        CleanupStep.restoreWaybar ∈ (gamescope_down st env).1)
    ∧ (env.remove_fails = false → st.waybar_was_stopped = true →
        env.waybar_restore_fails = true →
        CleanupStep.unregisterHotkey ∉ (gamescope_down st env).1
        ∧ (gamescope_down st env).2 = false)
    ∧ (env.remove_fails = false →
        (st.waybar_was_stopped = false ∨ env.waybar_restore_fails = false) →
        st.has_exit_hotkey = true →
        CleanupStep.unregisterHotkey ∈ (gamescope_down st env).1
        ∧ (gamescope_down st env).2 = true) := by
  rcases st with ⟨wb, hk⟩
  rcases env with ⟨k, r, w, u⟩
  cases wb <;> cases hk <;> cases k <;> cases r <;> cases w <;> cases u <;>
    exact ⟨by decide, by decide, by decide, by decide, by decide, by decide⟩

/-- The presence test `has_arg` distributes over list append. -/
lemma has_arg_append (l₁ l₂ : List String) (f : String) :
    has_arg (l₁ ++ l₂) f = (has_arg l₁ f || has_arg l₂ f) := by
  simp [has_arg, List.any_append]

/-- An injected `[flag, value]` segment satisfies `has_arg` for its flag. -/
lemma has_arg_pair_self (f v : String) : has_arg [f, v] f = true := by
  simp [has_arg]

/-- A flag found in the left part is found in the whole. -/
lemma has_arg_append_left (l x : List String) (f : String)
    (h : has_arg l f = true) : has_arg (l ++ x) f = true := by
  rw [has_arg_append, h, Bool.true_or]

/-- A flag found in the right part is found in the whole. -/
lemma has_arg_append_right (l x : List String) (f : String)
    (h : has_arg x f = true) : has_arg (l ++ x) f = true := by
  rw [has_arg_append, h, Bool.or_true]

/-- A true left disjunct makes a boolean disjunction true. -/
lemma bool_or_left {a b : Bool} (h : a = true) : (a || b) = true := by
  rw [h, Bool.true_or]

/-- A flag pair present in a prefix stays present after appending. -/
lemma has_arg_or_append (l x : List String) (f g : String)
    (h : (has_arg l f || has_arg l g) = true) :
    (has_arg (l ++ x) f || has_arg (l ++ x) g) = true := by
  rcases hf : has_arg l f with _ | _
  · rcases hg : has_arg l g with _ | _
    · rw [hf, hg] at h; simp at h
    · rw [has_arg_append l x g, hg, Bool.true_or, Bool.or_true]
  · rw [has_arg_append l x f, hf, Bool.true_or, Bool.true_or]

/-- Appending conditionally is appending a conditional segment. -/
lemma ite_append_eq (c : Prop) [Decidable c] (l x : List String) :
    (if c then l else l ++ x) = l ++ (if c then [] else x) := by
  split <;> simp

/-- Witness for C4 (amended): kill fails and unregister fails, yet every
recorded cleanup step is attempted and the call returns `Ok`. -/
theorem C4_teardown_step_independence_witness :
    CleanupStep.killProcess ∈ (gamescope_down ⟨true, true⟩ ⟨true, false, false, true⟩).1
    ∧ CleanupStep.removeStateFile ∈ (gamescope_down ⟨true, true⟩ ⟨true, false, false, true⟩).1
    ∧ CleanupStep.restoreWaybar ∈ (gamescope_down ⟨true, true⟩ ⟨true, false, false, true⟩).1
    ∧ CleanupStep.unregisterHotkey
        ∈ (gamescope_down ⟨true, true⟩ ⟨true, false, false, true⟩).1
    ∧ (gamescope_down ⟨true, true⟩ ⟨true, false, false, true⟩).2 = true :=
  have h := C4_teardown_step_independence ⟨true, true⟩ ⟨true, false, false, true⟩
  ⟨h.1.1, h.1.2,
   h.2.2.2.1 rfl rfl,
   (h.2.2.2.2.2 rfl (Or.inr rfl) rfl).1,
   (h.2.2.2.2.2 rfl (Or.inr rfl) rfl).2⟩

/-- C6: the built argument vector decomposes as the caller's pre-separator
arguments, followed by exactly the size-flag pairs whose flag the caller
had not already supplied before the `"--"` separator, followed by the
post-separator arguments; consequently it always satisfies the presence
test for all four flags (in one spelling or the other), and everything
from the first `"--"` onward is preserved verbatim, in order, as a suffix. -/
theorem C6_build_args_injects_and_preserves (args : List String) (sw sh iw ih : Int) :
    (build_gamescope_args_with_internal args sw sh iw ih
      = argsSplitPre args
        ++ (if (has_arg (argsSplitPre args) "-W"
                || has_arg (argsSplitPre args) "--output-width") = true
            then [] else ["-W", toString sw])
        ++ (if (has_arg (argsSplitPre args) "-H"
                || has_arg (argsSplitPre args) "--output-height") = true
            then [] else ["-H", toString sh])
        ++ (if (has_arg (argsSplitPre args) "-w"
                || has_arg (argsSplitPre args) "--nested-width") = true
            then [] else ["-w", toString iw])
        ++ (if (has_arg (argsSplitPre args) "-h"
                || has_arg (argsSplitPre args) "--nested-height") = true
            then [] else ["-h", toString ih])
        ++ argsSplitPost args)
    ∧ (has_arg (build_gamescope_args_with_internal args sw sh iw ih) "-W"
        || has_arg (build_gamescope_args_with_internal args sw sh iw ih)
            "--output-width") = true
    ∧ (has_arg (build_gamescope_args_with_internal args sw sh iw ih) "-H"
        || has_arg (build_gamescope_args_with_internal args sw sh iw ih)
            "--output-height") = true
    ∧ (has_arg (build_gamescope_args_with_internal args sw sh iw ih) "-w"
        || has_arg (build_gamescope_args_with_internal args sw sh iw ih)
            "--nested-width") = true
    ∧ (has_arg (build_gamescope_args_with_internal args sw sh iw ih) "-h"
        || has_arg (build_gamescope_args_with_internal args sw sh iw ih)
            "--nested-height") = true
    ∧ (∀ idx, args.findIdx? (fun a => a == "--") = some idx →
        (args.drop idx) <:+ build_gamescope_args_with_internal args sw sh iw ih) := by
  have hstruct : build_gamescope_args_with_internal args sw sh iw ih
      = argsSplitPre args
        ++ ((if (has_arg (argsSplitPre args) "-W"
                || has_arg (argsSplitPre args) "--output-width") = true
            then [] else ["-W", toString sw])
        ++ ((if (has_arg (argsSplitPre args) "-H"
                || has_arg (argsSplitPre args) "--output-height") = true
            then [] else ["-H", toString sh])
        ++ ((if (has_arg (argsSplitPre args) "-w"
                || has_arg (argsSplitPre args) "--nested-width") = true
            then [] else ["-w", toString iw])
        ++ ((if (has_arg (argsSplitPre args) "-h"
                || has_arg (argsSplitPre args) "--nested-height") = true
            then [] else ["-h", toString ih])
        ++ argsSplitPost args)))) := by
    unfold build_gamescope_args_with_internal
    simp only [ite_append_eq]
    simp only [List.append_assoc]
  refine ⟨by rw [hstruct]; simp only [List.append_assoc], ?_, ?_, ?_, ?_, ?_⟩
  · rw [hstruct]
    by_cases h1 : (has_arg (argsSplitPre args) "-W"
        || has_arg (argsSplitPre args) "--output-width") = true
    · exact has_arg_or_append _ _ _ _ h1
    · rw [Bool.not_eq_true] at h1
      rw [h1]
      simp only [Bool.false_eq_true, if_false]
      exact bool_or_left (has_arg_append_right _ _ _
        (has_arg_append_left _ _ _ (has_arg_pair_self _ _)))
  · rw [hstruct]
    by_cases h2 : (has_arg (argsSplitPre args) "-H"
        || has_arg (argsSplitPre args) "--output-height") = true
    · exact has_arg_or_append _ _ _ _ h2
    · rw [Bool.not_eq_true] at h2
      rw [h2]
      simp only [Bool.false_eq_true, if_false]
      exact bool_or_left (has_arg_append_right _ _ _ (has_arg_append_right _ _ _
        (has_arg_append_left _ _ _ (has_arg_pair_self _ _))))
  · rw [hstruct]
    by_cases h3 : (has_arg (argsSplitPre args) "-w"
        || has_arg (argsSplitPre args) "--nested-width") = true
    · exact has_arg_or_append _ _ _ _ h3
    · rw [Bool.not_eq_true] at h3
      rw [h3]
      simp only [Bool.false_eq_true, if_false]
      exact bool_or_left (has_arg_append_right _ _ _ (has_arg_append_right _ _ _
        (has_arg_append_right _ _ _
          (has_arg_append_left _ _ _ (has_arg_pair_self _ _)))))
  · rw [hstruct]
    by_cases h4 : (has_arg (argsSplitPre args) "-h"
        || has_arg (argsSplitPre args) "--nested-height") = true
    · exact has_arg_or_append _ _ _ _ h4
    · rw [Bool.not_eq_true] at h4
      rw [h4]
      simp only [Bool.false_eq_true, if_false]
      exact bool_or_left (has_arg_append_right _ _ _ (has_arg_append_right _ _ _
        (has_arg_append_right _ _ _ (has_arg_append_right _ _ _
          (has_arg_append_left _ _ _ (has_arg_pair_self _ _))))))
  · intro idx hidx
    have hpost : argsSplitPost args = args.drop idx := by
      simp [argsSplitPost, hidx]
    rw [hstruct, ← hpost]
    exact ((((List.suffix_append _ _).trans
      (List.suffix_append _ _)).trans
      (List.suffix_append _ _)).trans
      (List.suffix_append _ _)).trans
      (List.suffix_append _ _)

/-- Witness for C6 at `["-f", "--", "game"]` with sizes 100, 200, 50, 60:
the trailing game command, separator included, is a verbatim suffix. -/
theorem C6_build_args_injects_and_preserves_witness :
    (["-f", "--", "game"].drop 1)
      <:+ build_gamescope_args_with_internal ["-f", "--", "game"] 100 200 50 60 :=
  (C6_build_args_injects_and_preserves ["-f", "--", "game"] 100 200 50 60).2.2.2.2.2
    1 (by rfl)

end Hyprfinity
